import Mathlib

/-!
Verification of the blockchain-network-project core against its
natural-language specification.

The development shallowly embeds the ledger core of the repository:
SHA-256 hashing (the repository hashes with Node `crypto` /
`crypto-js` SHA-256, so the algorithm is implemented here in full),
the `MerkleTree` class of `src/backend/lib/TransactionPool.js`
(first variant, lines 119-214), the `Transaction` class of
`src/backend/wallet/routes/walletRoutes.js` (lines 69-159), the
`Block` class of `src/backend/blockchain/Block.js` (lines 13-105)
and the `Blockchain` class of the same file (lines 118-269).

Strings are treated as their ASCII character sequences; every
concrete string handled by the embedded code (hex digests, JSON of
the simple transaction records, addresses) is ASCII, where UTF-16
code units (JavaScript), UTF-8 bytes (Node `crypto`) and Lean
characters all coincide.
-/

set_option maxRecDepth 100000

/-- Reduce a natural number to a 32-bit word, as every SHA-256 step does. -/
def u32 (x : Nat) : Nat := x % 4294967296

/-- Right rotation of a 32-bit word by `n` bits. -/
def rotr (n x : Nat) : Nat := u32 ((x >>> n) ||| (x <<< (32 - n)))

/-- SHA-256 big sigma 0. -/
def bigSigma0 (x : Nat) : Nat := rotr 2 x ^^^ rotr 13 x ^^^ rotr 22 x

/-- SHA-256 big sigma 1. -/
def bigSigma1 (x : Nat) : Nat := rotr 6 x ^^^ rotr 11 x ^^^ rotr 25 x

/-- SHA-256 small sigma 0. -/
def smallSigma0 (x : Nat) : Nat := rotr 7 x ^^^ rotr 18 x ^^^ (x >>> 3)

/-- SHA-256 small sigma 1. -/
def smallSigma1 (x : Nat) : Nat := rotr 17 x ^^^ rotr 19 x ^^^ (x >>> 10)

/-- SHA-256 choice function. -/
def shaCh (x y z : Nat) : Nat := (x &&& y) ^^^ ((x ^^^ 4294967295) &&& z)

/-- SHA-256 majority function. -/
def shaMaj (x y z : Nat) : Nat := (x &&& y) ^^^ (x &&& z) ^^^ (y &&& z)

/-- SHA-256 round constants (decimal renderings of the FIPS 180-4
words). -/
def shaK : List Nat :=
  [1116352408, 1899447441, 3049323471, 3921009573, 961987163,
   1508970993, 2453635748, 2870763221, 3624381080, 310598401,
   607225278, 1426881987, 1925078388, 2162078206, 2614888103,
   3248222580, 3835390401, 4022224774, 264347078, 604807628,
   770255983, 1249150122, 1555081692, 1996064986, 2554220882,
   2821834349, 2952996808, 3210313671, 3336571891, 3584528711,
   113926993, 338241895, 666307205, 773529912, 1294757372,
   1396182291, 1695183700, 1986661051, 2177026350, 2456956037,
   2730485921, 2820302411, 3259730800, 3345764771, 3516065817,
   3600352804, 4094571909, 275423344, 430227734, 506948616,
   659060556, 883997877, 958139571, 1322822218, 1537002063,
   1747873779, 1955562222, 2024104815, 2227730452, 2361852424,
   2428436474, 2756734187, 3204031479, 3329325298]

/-- SHA-256 initial hash state (decimal renderings of the FIPS 180-4
words). -/
def shaH0 : List Nat :=
  [1779033703, 3144134277, 1013904242, 2773480762, 1359893119,
   2600822924, 528734635, 1541459225]

/-- Big-endian 8-byte encoding of a natural number. -/
def be8 (n : Nat) : List Nat :=
  [(n >>> 56) &&& 255, (n >>> 48) &&& 255, (n >>> 40) &&& 255, (n >>> 32) &&& 255,
   (n >>> 24) &&& 255, (n >>> 16) &&& 255, (n >>> 8) &&& 255, n &&& 255]

/-- SHA-256 message padding: append 0x80, zero bytes up to 56 mod 64,
then the bit length as a 64-bit big-endian integer. -/
def shaPad (msg : List Nat) : List Nat :=
  msg ++ [128] ++ List.replicate ((119 - msg.length % 64) % 64) 0 ++ be8 (8 * msg.length)

/-- Group a byte list into big-endian 32-bit words. -/
def bytesToWords : List Nat → List Nat
  | a :: b :: c :: d :: rest => (((a * 256 + b) * 256 + c) * 256 + d) :: bytesToWords rest
  | _ => []

/-- Split a word list into blocks of 16 words. -/
def chunk16 : List Nat → List (List Nat)
  | w0 :: w1 :: w2 :: w3 :: w4 :: w5 :: w6 :: w7 ::
    w8 :: w9 :: w10 :: w11 :: w12 :: w13 :: w14 :: w15 :: rest =>
      [w0, w1, w2, w3, w4, w5, w6, w7, w8, w9, w10, w11, w12, w13, w14, w15] :: chunk16 rest
  | _ => []

/-- SHA-256 rounds, one per remaining round constant.  The message
schedule is produced on the fly: the second argument always holds the
next sixteen schedule words `w[t] .. w[t+15]`, and each round consumes
`w[t]` and appends
`w[t+16] = sigma1 w[t+14] + w[t+9] + sigma0 w[t+1] + w[t]`. -/
def shaRounds :
    List Nat → List Nat →
    Nat → Nat → Nat → Nat → Nat → Nat → Nat → Nat → List Nat
  | [], _, a, b, c, d, e, f, g, hh => [a, b, c, d, e, f, g, hh]
  | k :: ks, w0 :: w1 :: w2 :: w3 :: w4 :: w5 :: w6 :: w7 :: ws,
    a, b, c, d, e, f, g, hh =>
    let wNext :=
      match ws with
      | _ :: w9 :: _ :: _ :: _ :: _ :: w14 :: _ =>
        u32 (smallSigma1 w14 + w9 + smallSigma0 w1 + w0)
      | _ => 0
    let t1 := u32 (hh + bigSigma1 e + shaCh e f g + k + w0)
    let t2 := u32 (bigSigma0 a + shaMaj a b c)
    shaRounds ks (w1 :: w2 :: w3 :: w4 :: w5 :: w6 :: w7 :: ws ++ [wNext])
      (u32 (t1 + t2)) a b c (u32 (d + t1)) e f g
  | _, _, a, b, c, d, e, f, g, hh => [a, b, c, d, e, f, g, hh]

/-- One SHA-256 compression step over a 16-word block. -/
def shaCompress (h : List Nat) (ws : List Nat) : List Nat :=
  let s := shaRounds shaK ws
    (h.getD 0 0) (h.getD 1 0) (h.getD 2 0) (h.getD 3 0)
    (h.getD 4 0) (h.getD 5 0) (h.getD 6 0) (h.getD 7 0)
  match s with
  | [a, b, c, d, e, f, g, hh] =>
    [u32 (h.getD 0 0 + a), u32 (h.getD 1 0 + b), u32 (h.getD 2 0 + c), u32 (h.getD 3 0 + d),
     u32 (h.getD 4 0 + e), u32 (h.getD 5 0 + f), u32 (h.getD 6 0 + g), u32 (h.getD 7 0 + hh)]
  | _ => []

/-- SHA-256 digest of a byte list, as eight 32-bit words. -/
def sha256Words (msg : List Nat) : List Nat :=
  (chunk16 (bytesToWords (shaPad msg))).foldl shaCompress shaH0

/-- Lowercase hexadecimal digit. -/
def hexChar (n : Nat) : Char := if n < 10 then Char.ofNat (48 + n) else Char.ofNat (87 + n)

/-- Eight-digit lowercase hex rendering of a 32-bit word. -/
def word8hex (w : Nat) : List Char :=
  [hexChar ((w >>> 28) &&& 15), hexChar ((w >>> 24) &&& 15),
   hexChar ((w >>> 20) &&& 15), hexChar ((w >>> 16) &&& 15),
   hexChar ((w >>> 12) &&& 15), hexChar ((w >>> 8) &&& 15),
   hexChar ((w >>> 4) &&& 15), hexChar (w &&& 15)]

/-- Bytes of an ASCII string (code points, which equal its UTF-8 bytes
and UTF-16 units for the ASCII data this program handles). -/
def strBytes (s : String) : List Nat := s.data.map Char.toNat

/-- SHA-256 of a string as a lowercase hex string: the `hashSHA256`
utility of the repository (Node `crypto` SHA-256, hex digest). -/
def hashSHA256 (s : String) : String :=
  String.mk (((sha256Words (strBytes s)).map word8hex).flatten)


/-!
MerkleTree, first variant of `src/backend/lib/TransactionPool.js`
(lines 119-214).  The constructor stores `leaves` (the SHA-256 of each
input) and `tree` (the result of `buildTree`, which collapses the
leaves pairwise down to the single root).
-/

deriving instance DecidableEq for Except

/-- Error values thrown by the Merkle-tree code. -/
inductive MerkleError where
  | emptyInput
  | notFound
  deriving DecidableEq, Repr

/-- One level-combining pass of `buildTree` (the `for` loop at
TransactionPool.js lines 146-150): hashes adjacent pairs, duplicating
the last hash when the level has odd length (`hashes[i + 1] || left`). -/
def combinePairs : List String → List String
  | [] => []
  | [x] => [hashSHA256 (x ++ x)]
  | x :: y :: rest => hashSHA256 (x ++ y) :: combinePairs rest

/-- Recursion of `buildTree` with an explicit iteration bound.  Each
pass at least halves a level of length greater than one, so
`hashes.length` passes always suffice; the bound only makes the
JavaScript recursion structurally terminating. -/
def buildTreeAux : Nat → List String → List String
  | 0, hs => hs
  | fuel + 1, hs => if hs.length ≤ 1 then hs else buildTreeAux fuel (combinePairs hs)

/-- The `buildTree` method (TransactionPool.js lines 140-153): combine
levels pairwise until a single hash remains.  (On the empty list the
JavaScript recursion never terminates; it is unreachable because the
constructor rejects empty input, and this embedding returns `[]` there.) -/
def buildTree (hs : List String) : List String := buildTreeAux hs.length hs

/-- A Merkle tree instance: the stored `leaves` and `tree` fields. -/
structure MerkleTree where
  leaves : List String
  tree : List String
  deriving DecidableEq, Repr

/-- The MerkleTree constructor (TransactionPool.js lines 125-132):
rejects an empty transaction list, hashes every transaction into
`leaves`, and builds `tree`. -/
def MerkleTree.new (transactions : List String) : Except MerkleError MerkleTree :=
  if transactions.isEmpty then .error .emptyInput
  else
    let leaves := transactions.map hashSHA256
    .ok ⟨leaves, buildTree leaves⟩

/-- The `getRoot` method (TransactionPool.js lines 159-161):
`this.tree[this.tree.length - 1]`. -/
def MerkleTree.getRoot (t : MerkleTree) : String := t.tree.getD (t.tree.length - 1) ""

/-- Loop body of `generateProof` (TransactionPool.js lines 179-190)
with an explicit iteration bound: pick the positional sibling (or the
node itself at an odd level end), push it on the proof, halve the
index, and - exactly as the source does - replace the level by
`buildTree level` before the next test. -/
def generateProofAux : Nat → List String → Nat → List String → List String
  | 0, _, _, proof => proof
  | fuel + 1, level, index, proof =>
    if level.length ≤ 1 then proof
    else
      let sib := if index % 2 == 0 then index + 1 else index - 1
      let sib := if sib < level.length then sib else index
      generateProofAux fuel (buildTree level) (index / 2) (proof ++ [level.getD sib ""])

/-- The `generateProof` method (TransactionPool.js lines 169-193):
hash the transaction, locate its leaf (JavaScript `indexOf` returning
`-1` is the `none` case), then run the sibling-collecting loop. -/
def MerkleTree.generateProof (t : MerkleTree) (transaction : String) :
    Except MerkleError (List String) :=
  let hash := hashSHA256 transaction
  match t.leaves.findIdx? (· == hash) with
  | none => .error .notFound
  | some index => .ok (generateProofAux t.leaves.length t.leaves index [])

/-- JavaScript string `<`: lexicographic comparison of the code-unit
sequences (identical to code-point order on the ASCII data here). -/
def jsStrLtAux : List Char → List Char → Bool
  | [], [] => false
  | [], _ :: _ => true
  | _ :: _, [] => false
  | a :: as, b :: bs =>
    if a.toNat < b.toNat then true
    else if b.toNat < a.toNat then false
    else jsStrLtAux as bs

/-- JavaScript string `<` on strings. -/
def jsStrLt (a b : String) : Bool := jsStrLtAux a.data b.data

/-- The static `verifyProof` method (TransactionPool.js lines 202-213):
fold over the proof, ordering each concatenation by comparing the hash
strings (`computedHash < siblingHash`), and compare with the root. -/
def MerkleTree.verifyProof (proof : List String) (root : String) (transaction : String) : Bool :=
  let computed := proof.foldl
    (fun computed sibling =>
      if jsStrLt computed sibling then hashSHA256 (computed ++ sibling)
      else hashSHA256 (sibling ++ computed))
    (hashSHA256 transaction)
  computed == root

/-- Merkle round trip: build the tree over `txs`, generate the proof
for `transaction`, verify it against the root.  `none` when the build
or the proof generation throws. -/
def merkleRoundTrip (txs : List String) (transaction : String) : Option Bool :=
  match MerkleTree.new txs with
  | .error _ => none
  | .ok tree =>
    match tree.generateProof transaction with
    | .error _ => none
    | .ok proof => some (MerkleTree.verifyProof proof tree.getRoot transaction)

/-!
Transaction, the class of `src/backend/wallet/routes/walletRoutes.js`
(lines 69-159).  JavaScript `null` fields become `Option`; the
constructor stamps `timestamp` from `Date.now()`, passed explicitly
here; `status` starts as `"pending"`.
-/

/-- Error values thrown by the transaction code. -/
inductive TxError where
  | unsigned
  | missingFromAddress
  | invalidStatus
  deriving DecidableEq, Repr

/-- A transaction record with the fields set by the constructor, in
declaration order. -/
structure Transaction where
  fromAddress : Option String
  toAddress : String
  amount : Int
  type : String
  timestamp : Int
  signature : Option String
  status : String
  deriving DecidableEq, Repr, Inhabited

/-- The Transaction constructor (walletRoutes.js lines 77-85); `now`
is the `Date.now()` value observed at construction. -/
def Transaction.new (fromAddress : Option String) (toAddress : String) (amount : Int)
    (type : String) (now : Int) : Transaction :=
  { fromAddress := fromAddress, toAddress := toAddress, amount := amount,
    type := type, timestamp := now, signature := none, status := "pending" }

/-- JavaScript template rendering of a nullable string (`null` prints
as "null"). -/
def jsOptStr : Option String → String
  | none => "null"
  | some s => s

/-- JavaScript template rendering of an integer number. -/
def jsInt (i : Int) : String := toString i

/-- The `calculateHash` method (walletRoutes.js lines 91-95): SHA-256
over the template
`fromAddress ++ toAddress ++ amount ++ type ++ timestamp ++ status`. -/
def Transaction.calculateHash (t : Transaction) : String :=
  hashSHA256 (jsOptStr t.fromAddress ++ t.toAddress ++ jsInt t.amount ++ t.type ++
              jsInt t.timestamp ++ t.status)

/-- The `isValid` method (walletRoutes.js lines 116-129).  Signature
verification calls into Node RSA crypto (part_014 of the sources) and
is abstracted as the `verify hash signature fromAddress` parameter,
mirroring the call `verifySignature(hashTx, this.signature,
this.fromAddress)`.  JavaScript falsiness of `null` and `""` is
modelled by treating a missing or empty string as absent. -/
def Transaction.isValid (verify : String → String → String → Bool) (t : Transaction) :
    Except TxError Bool :=
  if t.type == "reward" then .ok true
  else if (t.signature.getD "").isEmpty then .error .unsigned
  else if (t.fromAddress.getD "").isEmpty then .error .missingFromAddress
  else .ok (verify (Transaction.calculateHash t) (t.signature.getD "") (t.fromAddress.getD ""))

/-- The `updateStatus` method (walletRoutes.js lines 135-143): any of
the three listed statuses is stored unconditionally; anything else
throws, leaving the transaction unchanged. -/
def Transaction.updateStatus (t : Transaction) (newStatus : String) :
    Except TxError Transaction :=
  if newStatus == "pending" || newStatus == "confirmed" || newStatus == "available" then
    .ok { t with status := newStatus }
  else .error .invalidStatus

/-!
Block, the class of `src/backend/blockchain/Block.js` (lines 13-105).
`JSON.stringify` of a transaction object serializes the fields in
constructor insertion order; the simple field values this system
stores (addresses, hex digests, small type and status words) need no
JSON string escaping, so a string field renders as itself in quotes.
-/

/-- JSON rendering of a nullable string field. -/
def jsonOptStr : Option String → String
  | none => "null"
  | some s => "\"" ++ s ++ "\""

/-- JSON.stringify of a transaction object: fields in the insertion
order of the constructor (walletRoutes.js lines 77-85). -/
def jsonTransaction (t : Transaction) : String :=
  "\x7b\"fromAddress\":" ++ jsonOptStr t.fromAddress ++
  ",\"toAddress\":\"" ++ t.toAddress ++
  "\",\"amount\":" ++ jsInt t.amount ++
  ",\"type\":\"" ++ t.type ++
  "\",\"timestamp\":" ++ jsInt t.timestamp ++
  ",\"signature\":" ++ jsonOptStr t.signature ++
  ",\"status\":\"" ++ t.status ++ "\"\x7d"

/-- JSON.stringify of a transaction array. -/
def jsonTransactions (ts : List Transaction) : String :=
  "[" ++ String.intercalate "," (ts.map jsonTransaction) ++ "]"

/-- A block record: the fields assigned by the Block constructor
(Block.js lines 22-30). -/
structure Block where
  index : Int
  previousHash : String
  timestamp : Int
  transactions : List Transaction
  nonce : Int
  merkleRoot : String
  hash : String
  deriving DecidableEq, Repr, Inhabited

/-- The `calculateMerkleRoot` method (Block.js lines 37-42): build a
MerkleTree from `transactions.map(tx => hashSHA256(JSON.stringify(tx)))`
and take its root.  The MerkleTree constructor hashes its inputs once
more, so each leaf is a double hash.  (With no transactions the
JavaScript constructor throws; this total embedding yields `""`,
unreachable through the operations below.) -/
def Block.calculateMerkleRoot (transactions : List Transaction) : String :=
  match MerkleTree.new (transactions.map (fun tx => hashSHA256 (jsonTransaction tx))) with
  | .ok t => t.getRoot
  | .error _ => ""

/-- The `calculateHash` method (Block.js lines 49-54): SHA-256 over
`index ++ previousHash ++ timestamp ++ JSON.stringify(transactions) ++
merkleRoot ++ nonce`. -/
def Block.calculateHash (b : Block) : String :=
  hashSHA256 (jsInt b.index ++ b.previousHash ++ jsInt b.timestamp ++
              jsonTransactions b.transactions ++ b.merkleRoot ++ jsInt b.nonce)

/-- The Block constructor (Block.js lines 22-30): store the five
arguments, derive `merkleRoot` from the transactions, then `hash`
from the other fields. -/
def Block.new (index : Int) (previousHash : String) (timestamp : Int)
    (transactions : List Transaction) (nonce : Int) : Block :=
  let b : Block :=
    { index := index, previousHash := previousHash, timestamp := timestamp,
      transactions := transactions, nonce := nonce,
      merkleRoot := Block.calculateMerkleRoot transactions, hash := "" }
  { b with hash := Block.calculateHash b }

/-- The proof-of-work target string `Array(difficulty + 1).join("0")`:
`difficulty` zero characters (for a negative JavaScript difficulty the
join is empty, matching `Int.toNat`). -/
def powTarget (difficulty : Int) : String :=
  String.mk (List.replicate difficulty.toNat (Char.ofNat 48))

/-- Test of the `mineBlock` loop (Block.js lines 62-64):
`hash.substring(0, difficulty)` against the target. -/
def Block.powDone (b : Block) (difficulty : Int) : Bool :=
  b.hash.take difficulty.toNat == powTarget difficulty

/-- The body of one `mineBlock` iteration (Block.js lines 65-66):
increment the nonce, recompute the hash. -/
def Block.mineStep (b : Block) : Block :=
  let b := { b with nonce := b.nonce + 1 }
  { b with hash := Block.calculateHash b }

/-- The `mineBlock` method (Block.js lines 61-68) with an explicit
iteration bound: the JavaScript `while` loop searches an unbounded
nonce space, so the embedding returns `none` when `fuel` iterations
did not reach the target. -/
def Block.mineBlock (difficulty : Int) : Nat → Block → Option Block
  | 0, b => if Block.powDone b difficulty then some b else none
  | fuel + 1, b =>
    if Block.powDone b difficulty then some b
    else Block.mineBlock difficulty fuel (Block.mineStep b)

/-!
Blockchain, the class of `src/backend/blockchain/Block.js`
(lines 118-269).

The class calls a Block constructor with three arguments
`(timestamp, transactions, previousHash)` (lines 137 and 171-175) and
methods `isValidChain`, `hasValidTransactions` and `tx.validate` - the
Block/Transaction variant those calls target is not among the source
files; only this caller is.  Those pieces are modelled from the spec
below: block construction fills the declared Block fields with the
evident roles (the spec fixes `index` as the sequence position and
`previousHash` as the latest block hash resp. "0" for genesis), and
chain validation follows the `isChainValid` loop of lines 201-220 with
the spec reading of its per-block transaction check.
-/

/-- The Blockchain state: the fields assigned by the constructor
(Block.js lines 122-129), minus the peer-node set, which only feeds
the empty `broadcastLatestBlock`. -/
structure Blockchain where
  chain : List Block
  difficulty : Int
  pendingTransactions : List Transaction
  miningReward : Int
  blockTime : Int
  deriving DecidableEq, Repr, Inhabited

/-- Modelled from the spec: `createGenesisBlock` (Block.js lines
135-138) builds `new Block(Date.parse("2024-01-01"), [genesisTx], "0")`
against the missing three-argument Block variant; per the spec the
genesis block has index 0, previousHash "0", the fixed timestamp
1704067200000, and the seed transaction (created at construction time
`now`). -/
def createGenesisBlock (now : Int) : Block :=
  Block.new 0 "0" 1704067200000 [Transaction.new none "genesis-address" 0 "standard" now] 0

/-- The Blockchain constructor (Block.js lines 122-129); `now` is the
construction time stamped into the genesis seed transaction. -/
def Blockchain.init (now : Int) : Blockchain :=
  { chain := [createGenesisBlock now], difficulty := 2, pendingTransactions := [],
    miningReward := 100, blockTime := 30000 }

/-- The `getLatestBlock` method (Block.js lines 144-146):
`chain[chain.length - 1]`. -/
def Blockchain.getLatestBlock (s : Blockchain) : Block :=
  s.chain.getD (s.chain.length - 1) default

/-- The `adjustDifficulty` method (Block.js lines 188-195), called on
the freshly mined block before it is pushed, so `getLatestBlock` is
still the previous tip. -/
def Blockchain.adjustDifficulty (s : Blockchain) (lastBlock : Block) : Blockchain :=
  let timeTaken := lastBlock.timestamp - s.getLatestBlock.timestamp
  if timeTaken < s.blockTime / 2 then { s with difficulty := s.difficulty + 1 }
  else if timeTaken > s.blockTime * 2 then { s with difficulty := s.difficulty - 1 }
  else s

/-- The `minePendingTransactions` method (Block.js lines 163-182):
push the reward transaction (a plain `new Transaction(null, addr,
miningReward)`, so of default type "standard"), build the block on the
snapshot, mine it, adjust difficulty, push the block, and finally
assign `pendingTransactions = []`.  The `arrivals` parameter models
the transactions that callers of `addTransaction` submit while the
mining loop runs (spec section 5): they join the queue after the
snapshot, and the final blanket assignment discards them together
with everything else. -/
def Blockchain.minePendingTransactions (s : Blockchain) (miningRewardAddress : String)
    (now : Int) (arrivals : List Transaction) (fuel : Nat) : Option Blockchain :=
  let rewardTx := Transaction.new none miningRewardAddress s.miningReward "standard" now
  let snapshot := s.pendingTransactions ++ [rewardTx]
  let block := Block.new (s.chain.length : Int) s.getLatestBlock.hash now snapshot 0
  match Block.mineBlock s.difficulty fuel block with
  | none => none
  | some mined =>
    let s1 := s.adjustDifficulty mined
    let _queueDuringMining := snapshot ++ arrivals
    some { s1 with chain := s1.chain ++ [mined], pendingTransactions := [] }

/-- Result of a transaction validity check as chain validation uses it:
`isValid` must succeed and return `true`. -/
def txValidB (verify : String → String → String → Bool) (t : Transaction) : Bool :=
  match Transaction.isValid verify t with
  | .ok b => b
  | .error _ => false

/-- Modelled from the spec: the per-block transaction check
`hasValidTransactions` invoked by `isChainValid` (Block.js line 206)
is absent from the sources; per spec section 4.3 it recomputes the
Merkle root from the transactions and validates every transaction. -/
def hasValidTransactionsB (verify : String → String → String → Bool) (b : Block) : Bool :=
  (Block.calculateMerkleRoot b.transactions == b.merkleRoot) &&
  b.transactions.all (txValidB verify)

/-- The loop of `isChainValid` (Block.js lines 201-220) from index 1,
carrying the previous block: each block must pass the transaction
check, its stored hash must equal `calculateHash`, and its
`previousHash` must equal the previous block hash. -/
def isChainValidFrom (verify : String → String → String → Bool) :
    Block → List Block → Bool
  | _, [] => true
  | prev, cur :: rest =>
    hasValidTransactionsB verify cur && (cur.hash == Block.calculateHash cur) &&
    (cur.previousHash == prev.hash) && isChainValidFrom verify cur rest

/-- Modelled from the spec: the `isValidChain(newChain)` call in
`synchronizeChain` (Block.js line 260) has no definition in the
sources; per spec section 4.5 it is the `isChainValid` validation
(lines 201-220) run over the candidate chain. -/
def isValidChainB (verify : String → String → String → Bool) (chain : List Block) : Bool :=
  match chain with
  | [] => true
  | b0 :: rest => isChainValidFrom verify b0 rest

/-- The `synchronizeChain` method (Block.js lines 258-268): reject -
returning `false` with the state untouched - unless the candidate is
valid and strictly longer; otherwise assign `chain = newChain` and
return `true` (`broadcastLatestBlock`, lines 237-242, has an empty
body). -/
def Blockchain.synchronizeChain (verify : String → String → String → Bool)
    (s : Blockchain) (newChain : List Block) : Bool × Blockchain :=
  if !isValidChainB verify newChain || newChain.length ≤ s.chain.length then (false, s)
  else (true, { s with chain := newChain })

/-- Adjacent-pair chain linkage, as `isChainValid` checks it. -/
def chainLinkedB : List Block → Bool
  | [] => true
  | [_] => true
  | a :: b :: rest => (b.previousHash == a.hash) && chainLinkedB (b :: rest)

/-- States reachable by the Blockchain operations named in the chain
invariant: construction, `minePendingTransactions` and
`synchronizeChain`. -/
inductive Reachable (verify : String → String → String → Bool) : Blockchain → Prop where
  | init (now : Int) : Reachable verify (Blockchain.init now)
  | mine {s s' : Blockchain} (addr : String) (now : Int) (arrivals : List Transaction)
      (fuel : Nat) (h : Reachable verify s)
      (hm : s.minePendingTransactions addr now arrivals fuel = some s') :
      Reachable verify s'
  | sync {s : Blockchain} (newChain : List Block) (h : Reachable verify s) :
      Reachable verify (s.synchronizeChain verify newChain).2

/-!
Concrete fixtures used by the witnesses and counterexamples below.
-/

/-- A signature verifier that accepts everything; the structural
claims below hold for every verifier, and the concrete instances use
this one. -/
def vTrue : String → String → String → Bool := fun _ _ _ => true

/-- A reward-kind transaction fixture (its validity does not depend on
the signature verifier). -/
def txReward (ts : Int) : Transaction :=
  { fromAddress := none, toAddress := "m", amount := 1, type := "reward",
    timestamp := ts, signature := none, status := "pending" }

/-- First block of the adversarial candidate chain: index 0,
previousHash "0", but not the genesis block created by the
constructor. -/
def cb0 : Block := Block.new 0 "0" 1 [txReward 1] 0

/-- Second block of the adversarial candidate chain, linked to the
first. -/
def cb1 : Block := Block.new 1 cb0.hash 2 [txReward 2] 0

/-- A length-2 candidate chain that passes the chain validation
(which inspects blocks from index 1 only) without starting at the
genesis block. -/
def candChain : List Block := [cb0, cb1]

/-- The state reached from a fresh ledger by synchronizing with
`candChain`. -/
def syncedState : Blockchain := ((Blockchain.init 0).synchronizeChain vTrue candChain).2

/-- The block hash over exactly the five fields
`index ++ previousHash ++ timestamp ++ merkleRoot ++ nonce`, as the
spec prescribes and as the sibling source variants compute it
(`blockSchema.methods.calculateHash`, part_008 lines 84-87, and
`BlockchainService.calculateHashForBlock`, BlockchainService.js lines
259-262); stated here for comparison against `Block.calculateHash`. -/
def fiveFieldBlockHash (b : Block) : String :=
  hashSHA256 (jsInt b.index ++ b.previousHash ++ jsInt b.timestamp ++ b.merkleRoot ++
              jsInt b.nonce)

/-- A concrete block fixture. -/
def c4Block : Block := Block.new 3 "p" 7 [txReward 7] 0

/-- A concrete block fixture whose stored hash already meets
difficulty 0. -/
def c8Block : Block := Block.new 0 "0" 3 [txReward 3] 0

/-- A ledger with one pending transaction and difficulty 0, about to
mine. -/
def c7Start : Blockchain :=
  { Blockchain.init 0 with difficulty := 0, pendingTransactions := [txReward 3] }

/-- Mining on `c7Start` while `txReward 9` arrives mid-mine. -/
def minedWithLateArrival : Option Blockchain :=
  c7Start.minePendingTransactions "miner" 5 [txReward 9] 1

/-!
Theorems.  The SHA-256 embedding is pinned by the standard test
vectors first.
-/

/-- SHA-256 test vector for "abc". -/
theorem hashSHA256_abc :
    hashSHA256 "abc" = "ba7816bf8f01cfea414140de5dae2223b00361a396177a9cb410ff61f20015ad" := by
  decide

/-- SHA-256 test vector for the empty string. -/
theorem hashSHA256_empty :
    hashSHA256 "" = "e3b0c44298fc1c149afbf4c8996fb92427ae41e4649b934ca495991b7852b855" := by
  decide

/-- C10: for a MerkleTree built from exactly one transaction the root
is that transaction's leaf hash with no further hashing, the generated
proof is empty, and the empty proof verifies against that root. -/
theorem single_leaf_merkle (t : String) :
    MerkleTree.new [t] = .ok ⟨[hashSHA256 t], [hashSHA256 t]⟩ ∧
    MerkleTree.getRoot ⟨[hashSHA256 t], [hashSHA256 t]⟩ = hashSHA256 t ∧
    MerkleTree.generateProof ⟨[hashSHA256 t], [hashSHA256 t]⟩ t = .ok [] ∧
    MerkleTree.verifyProof [] (hashSHA256 t) t = true := by
  refine ⟨?_, ?_, ?_, ?_⟩
  · simp [MerkleTree.new, buildTree, buildTreeAux]
  · simp [MerkleTree.getRoot]
  · simp [MerkleTree.generateProof, List.findIdx?, generateProofAux]
  · simp [MerkleTree.verifyProof]

/-- C3: `synchronizeChain` accepts exactly when the candidate chain
passes full chain validation and is strictly longer than the local
chain; on acceptance the chain is replaced wholesale, otherwise the
state is returned unchanged. -/
theorem synchronizeChain_spec (verify : String → String → String → Bool)
    (s : Blockchain) (c : List Block) :
    (s.synchronizeChain verify c).1 =
      (isValidChainB verify c && decide (s.chain.length < c.length)) ∧
    (s.synchronizeChain verify c).2 =
      (if isValidChainB verify c && decide (s.chain.length < c.length) then
        { s with chain := c } else s) := by
  by_cases hv : isValidChainB verify c = true
  · by_cases hl : c.length ≤ s.chain.length
    · have hnl : ¬ s.chain.length < c.length := Nat.not_lt.mpr hl
      simp [Blockchain.synchronizeChain, hv, hl, hnl]
    · have hltl : s.chain.length < c.length := Nat.not_le.mp hl
      simp [Blockchain.synchronizeChain, hv, hl, hltl]
  · have hvf : isValidChainB verify c = false := by
      cases h : isValidChainB verify c
      · rfl
      · exact absurd h hv
    simp [Blockchain.synchronizeChain, hvf]

/-- C5 (amended): the transaction hash is a function of exactly the
six concatenated fields (sender, recipient, amount, kind, timestamp,
status); in particular it does not depend on the signature. -/
theorem calculateHash_agrees_on_six_fields (t1 t2 : Transaction)
    (h1 : t1.fromAddress = t2.fromAddress) (h2 : t1.toAddress = t2.toAddress)
    (h3 : t1.amount = t2.amount) (h4 : t1.type = t2.type)
    (h5 : t1.timestamp = t2.timestamp) (h6 : t1.status = t2.status) :
    Transaction.calculateHash t1 = Transaction.calculateHash t2 := by
  simp [Transaction.calculateHash, h1, h2, h3, h4, h5, h6]

/-- Witness for C5: two transactions agreeing on the six fields but
differing in signature hash equally. -/
theorem calculateHash_agreement_witness :
    Transaction.calculateHash
        { fromAddress := some "a", toAddress := "b", amount := 5, type := "standard",
          timestamp := 7, signature := some "sig", status := "pending" } =
      Transaction.calculateHash
        { fromAddress := some "a", toAddress := "b", amount := 5, type := "standard",
          timestamp := 7, signature := none, status := "pending" } :=
  calculateHash_agrees_on_six_fields _ _ rfl rfl rfl rfl rfl rfl

/-- Counterexample for C5 as stated: these transactions agree on
(sender, recipient, amount, kind, timestamp) and differ only in
`status`, yet their hashes differ, because the implementation feeds
`status` into the hash input. -/
theorem calculateHash_status_dependent :
    Transaction.calculateHash
        { fromAddress := some "a", toAddress := "b", amount := 5, type := "standard",
          timestamp := 7, signature := none, status := "pending" } ≠
      Transaction.calculateHash
        { fromAddress := some "a", toAddress := "b", amount := 5, type := "standard",
          timestamp := 7, signature := none, status := "confirmed" } := by
  decide

/-- C6 (amended): `isValid` is trivially true exactly for the
reward kind; for every other kind (the genesis kind included) it
throws the unsigned error when the signature is absent, throws the
missing-sender error when the sender is absent, and otherwise returns
the boolean result of verifying the signature against the sender over
`calculateHash` (rather than throwing an invalid-signature error). -/
theorem isValid_cases (verify : String → String → String → Bool) (t : Transaction) :
    (t.type = "reward" → t.isValid verify = .ok true) ∧
    (t.type ≠ "reward" → (t.signature.getD "").isEmpty = true →
      t.isValid verify = .error .unsigned) ∧
    (t.type ≠ "reward" → (t.signature.getD "").isEmpty = false →
      (t.fromAddress.getD "").isEmpty = true →
      t.isValid verify = .error .missingFromAddress) ∧
    (t.type ≠ "reward" → (t.signature.getD "").isEmpty = false →
      (t.fromAddress.getD "").isEmpty = false →
      t.isValid verify =
        .ok (verify t.calculateHash (t.signature.getD "") (t.fromAddress.getD ""))) := by
  refine ⟨fun h => ?_, fun h hs => ?_, fun h hs hf => ?_, fun h hs hf => ?_⟩
  · simp [Transaction.isValid, h]
  · simp [Transaction.isValid, h, hs]
  · simp [Transaction.isValid, h, hs, hf]
  · simp [Transaction.isValid, h, hs, hf]

/-- Witness for C6: a reward transaction is trivially valid, and an
unsigned genesis-kind transaction throws the unsigned error. -/
theorem isValid_cases_witness :
    (txReward 1).isValid vTrue = .ok true ∧
    Transaction.isValid vTrue
        { fromAddress := none, toAddress := "g", amount := 1, type := "genesis",
          timestamp := 0, signature := none, status := "pending" } =
      .error .unsigned :=
  ⟨(isValid_cases vTrue (txReward 1)).1 rfl,
   (isValid_cases vTrue _).2.1 (by decide) rfl⟩

/-- Counterexample for C6 as stated: an unsigned genesis-kind
transaction is not trivially valid; `isValid` throws the unsigned
error because only the reward kind is special-cased. -/
theorem genesis_not_trivially_valid :
    Transaction.isValid vTrue
        { fromAddress := none, toAddress := "g", amount := 1, type := "genesis",
          timestamp := 0, signature := none, status := "pending" } ≠
      .ok true := by
  decide

/-- C9 (amended): `updateStatus` succeeds for every target in
{pending, confirmed, available}, unconditionally overwriting the
current status - backward transitions included - and throws the
invalid-status error (leaving the transaction unchanged) only for a
target outside that set. -/
theorem updateStatus_cases (t : Transaction) (s : String) :
    ((s = "pending" ∨ s = "confirmed" ∨ s = "available") →
      t.updateStatus s = .ok { t with status := s }) ∧
    (s ≠ "pending" → s ≠ "confirmed" → s ≠ "available" →
      t.updateStatus s = .error .invalidStatus) := by
  constructor
  · rintro (h | h | h) <;> simp [Transaction.updateStatus, h]
  · intro h1 h2 h3
    simp [Transaction.updateStatus, h1, h2, h3]

/-- Witness for C9: a confirmed transaction may be set back to
pending, and an unknown status throws. -/
theorem updateStatus_cases_witness :
    Transaction.updateStatus { txReward 1 with status := "confirmed" } "pending" =
      .ok { txReward 1 with status := "pending" } ∧
    Transaction.updateStatus { txReward 1 with status := "confirmed" } "mined" =
      .error .invalidStatus :=
  ⟨(updateStatus_cases _ "pending").1 (Or.inl rfl),
   (updateStatus_cases _ "mined").2 (by decide) (by decide) (by decide)⟩

/-- Counterexample for C9 as stated: the backward transition from
confirmed to pending does not fail - it succeeds and changes the
status. -/
theorem updateStatus_allows_backward :
    Transaction.updateStatus { txReward 1 with status := "confirmed" } "pending" =
      .ok { txReward 1 with status := "pending" } := by
  decide

/-!
Proof-of-work postcondition (C8) and the chain-linkage machinery (C1).
-/

/-- The block hash ignores the stored `hash` field itself. -/
theorem calculateHash_set_hash (b : Block) (x : String) :
    Block.calculateHash { b with hash := x } = Block.calculateHash b := rfl

/-- A mining step re-establishes `hash = calculateHash`. -/
theorem mineStep_hash (b : Block) :
    (Block.mineStep b).hash = Block.calculateHash (Block.mineStep b) := rfl

/-- Mining changes only the nonce and the hash. -/
theorem mineStep_previousHash (b : Block) :
    (Block.mineStep b).previousHash = b.previousHash := rfl

/-- C8: whenever the mining loop returns, the resulting stored hash
starts with `difficulty` zero hex characters and equals
`calculateHash` of the block's current fields (the block enters the
loop satisfying its constructor invariant `hash = calculateHash`). -/
theorem mineBlock_postcondition (d : Nat) (fuel : Nat) (b b' : Block)
    (hinv : b.hash = Block.calculateHash b)
    (h : Block.mineBlock (d : Int) fuel b = some b') :
    b'.hash.take d = powTarget (d : Int) ∧ b'.hash = Block.calculateHash b' := by
  induction fuel generalizing b with
  | zero =>
    rw [Block.mineBlock] at h
    by_cases hp : Block.powDone b (d : Int) = true
    · rw [if_pos hp] at h
      cases h
      refine ⟨?_, hinv⟩
      have := (beq_iff_eq).mp hp
      simpa [Block.powDone, Int.toNat_ofNat] using this
    · rw [if_neg hp] at h
      cases h
  | succ fuel ih =>
    rw [Block.mineBlock] at h
    by_cases hp : Block.powDone b (d : Int) = true
    · rw [if_pos hp] at h
      cases h
      refine ⟨?_, hinv⟩
      have := (beq_iff_eq).mp hp
      simpa [Block.powDone, Int.toNat_ofNat] using this
    · rw [if_neg hp] at h
      exact ih (Block.mineStep b) (mineStep_hash b) h

/-- The mining loop never changes `previousHash`. -/
theorem mineBlock_previousHash (d : Int) (fuel : Nat) (b b' : Block)
    (h : Block.mineBlock d fuel b = some b') : b'.previousHash = b.previousHash := by
  induction fuel generalizing b with
  | zero =>
    rw [Block.mineBlock] at h
    by_cases hp : Block.powDone b d = true
    · rw [if_pos hp] at h; cases h; rfl
    · rw [if_neg hp] at h; cases h
  | succ fuel ih =>
    rw [Block.mineBlock] at h
    by_cases hp : Block.powDone b d = true
    · rw [if_pos hp] at h; cases h; rfl
    · rw [if_neg hp] at h
      rw [ih (Block.mineStep b) h, mineStep_previousHash]

/-- Linkage in index form: each block's `previousHash` equals the
previous block's `hash`. -/
theorem chainLinkedB_getD (l : List Block) (h : chainLinkedB l = true) :
    ∀ i, i + 1 < l.length →
      (l.getD (i + 1) default).previousHash = (l.getD i default).hash := by
  induction l with
  | nil => intro i hi; simp at hi
  | cons a t ih =>
    intro i hi
    cases t with
    | nil => simp at hi
    | cons b rest =>
      rw [chainLinkedB, Bool.and_eq_true, beq_iff_eq] at h
      cases i with
      | zero => simpa using h.1
      | succ j =>
        have hj : j + 1 < (b :: rest).length := by
          simpa [List.length_cons] using Nat.lt_of_succ_lt_succ hi
        simpa [List.getD_cons_succ] using ih h.2 j hj

/-- Appending a block whose `previousHash` is the hash of the last
block preserves linkage. -/
theorem chainLinkedB_append (l : List Block) (b : Block) (hne : l ≠ [])
    (hl : chainLinkedB l = true)
    (hb : b.previousHash = (l.getD (l.length - 1) default).hash) :
    chainLinkedB (l ++ [b]) = true := by
  induction l with
  | nil => exact absurd rfl hne
  | cons a t ih =>
    cases t with
    | nil =>
      have : b.previousHash = a.hash := by simpa using hb
      simp [chainLinkedB, this]
    | cons c rest =>
      rw [chainLinkedB, Bool.and_eq_true] at hl
      have hb' : b.previousHash = ((c :: rest).getD ((c :: rest).length - 1) default).hash := by
        simpa [List.getD_cons_succ, List.length_cons] using hb
      have hrec := ih (by simp) hl.2 hb'
      show chainLinkedB (a :: c :: (rest ++ [b])) = true
      rw [chainLinkedB, Bool.and_eq_true]
      exact ⟨hl.1, hrec⟩

/-- Chain validation from a previous block implies linkage of the
whole walked segment. -/
theorem isChainValidFrom_linked (v : String → String → String → Bool) :
    ∀ (rest : List Block) (prev : Block), isChainValidFrom v prev rest = true →
      chainLinkedB (prev :: rest) = true := by
  intro rest
  induction rest with
  | nil => intro prev _; rfl
  | cons cur rest ih =>
    intro prev h
    rw [isChainValidFrom, Bool.and_eq_true, Bool.and_eq_true, Bool.and_eq_true] at h
    rw [chainLinkedB, Bool.and_eq_true]
    exact ⟨h.1.2, ih cur h.2⟩

/-- A candidate chain accepted by the validation is linked. -/
theorem isValidChainB_linked (v : String → String → String → Bool) (c : List Block)
    (h : isValidChainB v c = true) : chainLinkedB c = true := by
  cases c with
  | nil => rfl
  | cons b0 rest => exact isChainValidFrom_linked v rest b0 h

/-- Difficulty adjustment does not touch the chain. -/
theorem adjustDifficulty_chain (s : Blockchain) (b : Block) :
    (s.adjustDifficulty b).chain = s.chain := by
  rw [Blockchain.adjustDifficulty]
  split
  · rfl
  · split <;> rfl

/-- Every reachable state has a nonempty, linked chain. -/
theorem reachable_nonempty_linked (verify : String → String → String → Bool)
    (s : Blockchain) (h : Reachable verify s) :
    s.chain ≠ [] ∧ chainLinkedB s.chain = true := by
  induction h with
  | init now => exact ⟨by simp [Blockchain.init], rfl⟩
  | @mine s s' addr now arrivals fuel h hm ih =>
    rw [Blockchain.minePendingTransactions] at hm
    cases hmb : Block.mineBlock s.difficulty fuel
        (Block.new (s.chain.length : Int) s.getLatestBlock.hash now
          (s.pendingTransactions ++
            [Transaction.new none addr s.miningReward "standard" now]) 0) with
    | none => rw [hmb] at hm; cases hm
    | some mined =>
      rw [hmb] at hm
      cases hm
      refine ⟨by simp, ?_⟩
      have hprev : mined.previousHash = s.getLatestBlock.hash :=
        (mineBlock_previousHash s.difficulty fuel _ mined hmb).trans rfl
      simp only [adjustDifficulty_chain]
      exact chainLinkedB_append s.chain mined ih.1 ih.2 hprev
  | @sync s newChain h ih =>
    rw [Blockchain.synchronizeChain]
    by_cases hcond :
        (!isValidChainB verify newChain || decide (newChain.length ≤ s.chain.length)) = true
    · rw [if_pos hcond]
      exact ih
    · rw [if_neg hcond]
      have hvalid : isValidChainB verify newChain = true := by
        cases hv : isValidChainB verify newChain
        · exact absurd (by rw [hv]; rfl) hcond
        · rfl
      have hlen : s.chain.length < newChain.length := by
        by_contra hle
        exact hcond (by rw [decide_eq_true (Nat.not_lt.mp hle), Bool.or_true])
      have hpos : 0 < newChain.length :=
        Nat.lt_of_le_of_lt (Nat.zero_le _) hlen
      refine ⟨?_, isValidChainB_linked verify newChain hvalid⟩
      show newChain ≠ []
      intro hc
      rw [hc] at hpos
      simp at hpos

/-- C1 (amended): in every state reachable by construction,
`minePendingTransactions` and `synchronizeChain`, the chain is
nonempty and every block's `previousHash` equals the previous block's
`hash`.  (The further clause of the original claim - that `chain[0]`
is always the fixed genesis block - fails: see the counterexample.) -/
theorem chain_linkage_of_reachable (verify : String → String → String → Bool)
    (s : Blockchain) (h : Reachable verify s) :
    s.chain ≠ [] ∧ ∀ i, i + 1 < s.chain.length →
      (s.chain.getD (i + 1) default).previousHash = (s.chain.getD i default).hash :=
  ⟨(reachable_nonempty_linked verify s h).1,
   chainLinkedB_getD s.chain (reachable_nonempty_linked verify s h).2⟩

/-- Witness for C1: a concrete reachable state of length 2 whose two
blocks are linked. -/
theorem chain_linkage_witness :
    0 + 1 < syncedState.chain.length ∧
    (syncedState.chain.getD 1 default).previousHash =
      (syncedState.chain.getD 0 default).hash :=
  ⟨by decide,
   (chain_linkage_of_reachable vTrue syncedState
      (Reachable.sync candChain (Reachable.init 0))).2 0 (by decide)⟩

/-- Counterexample for C1 as stated: `synchronizeChain` validates a
candidate chain from index 1 only, so it accepts `candChain`, whose
first block (timestamp 1) is not the constructor's genesis block
(fixed timestamp 1704067200000); the resulting state is reachable yet
its `chain[0]` differs from the genesis block. -/
theorem genesis_not_fixed_after_sync :
    Reachable vTrue syncedState ∧
    (syncedState.chain.getD 0 default).timestamp ≠
      ((Blockchain.init 0).chain.getD 0 default).timestamp :=
  ⟨Reachable.sync candChain (Reachable.init 0), by decide⟩

/-- C2: the Merkle proof round trip fails.  For the two-transaction
list the single sibling is combined in hash-magnitude order rather
than positional order, and for the four-transaction list
`generateProof` collapses the level with `buildTree` inside its loop
and so returns a one-element proof that cannot reach the root; in both
cases `verify(proof, root, T)` returns false for a transaction T that
is in the tree. -/
theorem merkle_roundtrip_fails :
    merkleRoundTrip ["a", "b"] "a" = some false ∧
    merkleRoundTrip ["a", "b", "c", "d"] "a" = some false :=
  ⟨by decide, by decide⟩

/-- C4: the stored block hash is not the hash of exactly the five
fields (index, previousHash, timestamp, merkleRoot, nonce):
`Block.calculateHash` also feeds `JSON.stringify(transactions)` into
the preimage, so it disagrees with the five-field hash that the
documentation of the method and the sibling variants prescribe
(`c4Block.hash` is the stored hash of the constructed fixture). -/
theorem calculateHash_includes_transactions :
    c4Block.hash = Block.calculateHash c4Block ∧
    Block.calculateHash c4Block ≠ fiveFieldBlockHash c4Block :=
  ⟨rfl, by decide⟩

/-- C7: transactions submitted while mining runs are dropped.  Mining
`c7Start` with one pending transaction while `txReward 9` arrives
mid-mine succeeds, yet afterwards the pending queue is empty - the
late submission is neither queued nor part of the mined block. -/
theorem mining_drops_concurrent_submissions :
    (minedWithLateArrival.map fun s => s.pendingTransactions) = some [] ∧
    (minedWithLateArrival.map fun s =>
      decide (txReward 9 ∈ (s.chain.getD (s.chain.length - 1) default).transactions)) =
      some false :=
  ⟨by rfl, by decide⟩

/-- Witness for C8: mining the already-target-meeting fixture at
difficulty 0 returns at once, with the postcondition holding. -/
theorem mineBlock_postcondition_witness :
    c8Block.hash = Block.calculateHash c8Block ∧
    Block.mineBlock ((0 : Nat) : Int) 0 c8Block = some c8Block ∧
    (c8Block.hash.take 0 = powTarget ((0 : Nat) : Int) ∧
      c8Block.hash = Block.calculateHash c8Block) :=
  ⟨rfl, by rfl,
   mineBlock_postcondition 0 0 c8Block c8Block rfl (by rfl)⟩
